import Mathlib

/-!
Verification of the answer-grading and mastery/leaderboard logic of the
GameCard backend.  Strings are modelled as `List Char` (JavaScript strings
are sequences of UTF-16 code units; every character appearing in this
development lies in the Basic Multilingual Plane, where code units and code
points coincide).  JavaScript numbers are modelled as exact rationals; the
only numeric operations involved are field operations and comparisons on
small decimal values, where the float64 computation of the source and the
rational model agree on every verdict stated below (ulp-level rounding of
float64 cannot move any of the compared quantities across the decision
boundaries used in the concrete statements).
-/

namespace GameCard

/-- Character class of the JavaScript regular-expression escape for
whitespace and of the characters removed by trim: tab through carriage
return, space, no-break space, ogham space mark, the en-quad..hair-space
range, the line and paragraph separators, the narrow no-break space, the
medium mathematical space, the ideographic space and the byte-order mark. -/
def isJsSpace (c : Char) : Bool :=
  (9 ≤ c.toNat && c.toNat ≤ 13) || c.toNat == 32 || c.toNat == 0xA0 ||
  c.toNat == 0x1680 || (0x2000 ≤ c.toNat && c.toNat ≤ 0x200A) ||
  c.toNat == 0x2028 || c.toNat == 0x2029 || c.toNat == 0x202F ||
  c.toNat == 0x205F || c.toNat == 0x3000 || c.toNat == 0xFEFF

/-- Model of the JavaScript toLowerCase on one character: the Unicode
simple lowercase mapping restricted to Basic Latin and Latin-1 (A..Z and
the uppercase Latin-1 letters, excluding the multiplication sign), and the
identity elsewhere.  Every cased character appearing in this development
lies in these two ranges; Thai characters are caseless, so the restriction
is exact on all inputs considered here. -/
def jsToLower (c : Char) : Char :=
  if 65 ≤ c.toNat ∧ c.toNat ≤ 90 then Char.ofNat (c.toNat + 32)
  else if 192 ≤ c.toNat ∧ c.toNat ≤ 222 ∧ c.toNat ≠ 215 then Char.ofNat (c.toNat + 32)
  else c

/-- Model of the JavaScript String.trim: drop the whitespace characters of
`isJsSpace` from both ends. -/
def jsTrim (l : List Char) : List Char :=
  ((l.dropWhile isJsSpace).reverse.dropWhile isJsSpace).reverse

/-- Helper for `collapseWs`: the flag records whether the previous
character was whitespace (in which case the current run has already been
replaced by one space). -/
def collapseWsAux : Bool → List Char → List Char
  | _, [] => []
  | prevSpace, c :: cs =>
    if isJsSpace c then
      if prevSpace then collapseWsAux true cs
      else ' ' :: collapseWsAux true cs
    else c :: collapseWsAux false cs

/-- Model of replacing every maximal run of whitespace by a single space,
as the source regular-expression replacement of runs of whitespace with a
space does (answer.service.ts line 100). -/
def collapseWs (l : List Char) : List Char := collapseWsAux false l

/-- The fixed punctuation class removed by normalizeText
(answer.service.ts line 101): period, comma, exclamation mark, question
mark, semicolon, colon, apostrophe, double quote. -/
def isStrippedPunct (c : Char) : Bool :=
  c == '.' || c == ',' || c == '!' || c == '?' || c == ';' || c == ':' ||
  c == '\'' || c == '"'

/-- Membership in the Thai Unicode block U+0E00..U+0E7F, the character
class of the final replacement in normalizeText (answer.service.ts
line 102). -/
def isThaiBlock (c : Char) : Bool :=
  0x0E00 ≤ c.toNat && c.toNat ≤ 0x0E7F

/-- Model of applying NFD to a single character of the Thai block, as the
source does per regular-expression match (answer.service.ts lines 102-105).
Per the Unicode character database no code point in U+0E00..U+0E7F carries
a canonical decomposition (U+0E33 SARA AM has only a compatibility
decomposition, which NFD does not apply), so this per-character NFD is the
identity. -/
def nfdThaiChar (c : Char) : List Char := [c]

/-- Embedding of AnswerValidator.normalizeText (answer.service.ts lines
96-106): trim, lowercase, collapse whitespace runs to one space, strip the
fixed punctuation set, then NFD-decompose each Thai-block character. -/
def normalizeText (text : List Char) : List Char :=
  ((collapseWs ((jsTrim text).map jsToLower)).filter
      (fun c => !isStrippedPunct c)).flatMap
    (fun c => if isThaiBlock c then nfdThaiChar c else [c])

/-- Embedding of AnswerValidator.validateTextAnswer (answer.service.ts
lines 33-38): the submission is correct iff its normalization equals the
normalization of some expected answer. -/
def validateTextAnswer (userAnswer : List Char)
    (correctAnswers : List (List Char)) : Bool :=
  correctAnswers.any (fun answer => normalizeText answer == normalizeText userAnswer)

/-- Embedding of AnswerValidator.validateMultipleChoice (answer.service.ts
lines 43-46): the JavaScript includes test, i.e. exact membership of the
raw submission in the expected-answer list. -/
def validateMultipleChoice (userAnswer : List Char)
    (correctAnswers : List (List Char)) : Bool :=
  correctAnswers.contains userAnswer

/-- Characters kept by the sanitization step of
AnswerValidator.evaluateExpression (answer.service.ts line 72): digits,
the four operators, parentheses, the decimal point and whitespace; every
other character is removed. -/
def keepCalcChar (c : Char) : Bool :=
  ('0' ≤ c && c ≤ '9') || c == '+' || c == '-' || c == '*' || c == '/' ||
  c == '(' || c == ')' || c == '.' || isJsSpace c

/-- The sanitization step of AnswerValidator.evaluateExpression
(answer.service.ts line 72): remove every character outside the kept
class. -/
def sanitizeExpression (l : List Char) : List Char := l.filter keepCalcChar

/-- An unreduced fraction with positive denominator.  Expression values
are computed in this representation rather than in `ℚ` because the
rational operations of the library are irreducible and so cannot be
evaluated by the kernel on concrete inputs; `Frac.toRat` interprets a
fraction as the rational it denotes, and all statements are made at the
rational level. -/
structure Frac where
  num : ℤ
  den : ℕ
  den_pos : 0 < den

/-- The rational denoted by a fraction. -/
def Frac.toRat (f : Frac) : ℚ := mkRat f.num f.den

/-- Fraction addition. -/
def Frac.add (a b : Frac) : Frac :=
  ⟨a.num * b.den + b.num * a.den, a.den * b.den, Nat.mul_pos a.den_pos b.den_pos⟩

/-- Fraction subtraction. -/
def Frac.sub (a b : Frac) : Frac :=
  ⟨a.num * b.den - b.num * a.den, a.den * b.den, Nat.mul_pos a.den_pos b.den_pos⟩

/-- Fraction multiplication. -/
def Frac.mul (a b : Frac) : Frac :=
  ⟨a.num * b.num, a.den * b.den, Nat.mul_pos a.den_pos b.den_pos⟩

/-- Fraction negation. -/
def Frac.neg (a : Frac) : Frac := ⟨-a.num, a.den, a.den_pos⟩

/-- Fraction division; division by zero is rejected (in JavaScript it
produces a non-finite value, which the grader's result check turns into a
thrown error, so the grading outcome is the same). -/
def Frac.div (a b : Frac) : Option Frac :=
  if h : b.num = 0 then none
  else
    some ⟨(if b.num < 0 then -a.num else a.num) * (b.den : ℤ), a.den * b.num.natAbs,
      Nat.mul_pos a.den_pos (Int.natAbs_pos.mpr h)⟩

/-- Tokens of the arithmetic expressions that survive sanitization. -/
inductive Tok where
  | num (f : Frac)
  | lparen
  | rparen
  | plusTok
  | minusTok
  | mulTok
  | divTok

/-- Whether a character is an ASCII digit. -/
def isDigitChar (c : Char) : Bool := '0' ≤ c && c ≤ '9'

/-- Numeric value of a digit string. -/
def digitsVal (ds : List Char) : ℕ :=
  ds.foldl (fun a c => 10 * a + (c.toNat - 48)) 0

/-- Value of a numeric literal with integer part `ds` and fractional part
`fs` (either may be empty, but not both): the fraction whose denominator
is the power of ten given by the length of the fractional part. -/
def literalVal (ds fs : List Char) : Frac :=
  ⟨(digitsVal ds : ℤ) * (10 : ℤ) ^ fs.length + (digitsVal fs : ℤ),
    10 ^ fs.length, Nat.pow_pos (by decide)⟩

/-- The ECMAScript line terminators: line feed, carriage return, line
separator, paragraph separator. -/
def isLineTerminator (c : Char) : Bool :=
  c.toNat == 10 || c.toNat == 13 || c.toNat == 0x2028 || c.toNat == 0x2029

/-- An integer part of two or more digits whose first digit is 0.  The
grader's Function body is strict-mode code, where such legacy-octal-like
literals (05, 010, 09, 00.5) are a syntax error, so the source throws and
grades false. -/
def leadingZeroLiteral : List Char → Bool
  | '0' :: _ :: _ => true
  | _ => false

/-- Skip the remainder of a slash-star block comment: return the text
after the first star-slash, or `none` when the comment is unterminated
(the source then raises a syntax error, since the comment swallows the
wrapper's closing parenthesis). -/
def skipBlockComment : List Char → Option (List Char)
  | [] => none
  | '*' :: '/' :: rest => some rest
  | _ :: rest => skipBlockComment rest

/-- Tokenizer for the sanitized expression text, following the strict-mode
JavaScript lexical grammar on this restricted character set: numeric
literals are digits with an optional fractional part, or a bare
fractional part; a lone decimal point is a syntax error; an integer part
of two or more digits starting with 0 is a syntax error (strict mode
forbids legacy-octal-like literals); two adjacent plus or minus signs lex
as an increment/decrement token, which is always a syntax error in the
expressions at hand, so they are rejected here (a space or comment
between the signs keeps them separate, as in the source); double-slash
line comments are skipped up to the next line terminator and are a
syntax error when unterminated, and slash-star block comments are
skipped and are a syntax error when unterminated, because either way the
comment would swallow the closing parenthesis the source wraps the text
in.  The fuel argument exceeds the input length, so it never runs out. -/
def tokenizeAux : ℕ → List Char → Option (List Tok)
  | 0, _ => none
  | _ + 1, [] => some []
  | fuel + 1, c :: cs =>
    if isJsSpace c then tokenizeAux fuel cs
    else if c == '(' then (tokenizeAux fuel cs).map (Tok.lparen :: ·)
    else if c == ')' then (tokenizeAux fuel cs).map (Tok.rparen :: ·)
    else if c == '*' then (tokenizeAux fuel cs).map (Tok.mulTok :: ·)
    else if c == '/' then
      match cs with
      | '/' :: rest =>
        match rest.dropWhile (fun d => !isLineTerminator d) with
        | [] => none
        | rest2 => tokenizeAux fuel rest2
      | '*' :: rest =>
        match skipBlockComment rest with
        | none => none
        | some rest2 => tokenizeAux fuel rest2
      | _ => (tokenizeAux fuel cs).map (Tok.divTok :: ·)
    else if c == '+' then
      match cs with
      | '+' :: _ => none
      | _ => (tokenizeAux fuel cs).map (Tok.plusTok :: ·)
    else if c == '-' then
      match cs with
      | '-' :: _ => none
      | _ => (tokenizeAux fuel cs).map (Tok.minusTok :: ·)
    else if isDigitChar c || c == '.' then
      let ds := (c :: cs).takeWhile isDigitChar
      let r1 := (c :: cs).dropWhile isDigitChar
      if leadingZeroLiteral ds then none
      else
        match r1 with
        | '.' :: r2 =>
          let fs := r2.takeWhile isDigitChar
          let r3 := r2.dropWhile isDigitChar
          if ds.isEmpty && fs.isEmpty then none
          else (tokenizeAux fuel r3).map (Tok.num (literalVal ds fs) :: ·)
        | _ => (tokenizeAux fuel r1).map (Tok.num (literalVal ds []) :: ·)
    else none

/-- Tokenize a sanitized expression. -/
def tokenize (l : List Char) : Option (List Tok) :=
  tokenizeAux (l.length + 1) l

mutual

/-- Additive level of the expression grammar (JavaScript precedence:
left-associative plus and minus over terms). -/
def parseExpr : ℕ → List Tok → Option (Frac × List Tok)
  | 0, _ => none
  | fuel + 1, ts =>
    match parseTerm fuel ts with
    | none => none
    | some (v, ts1) => parseExprRest fuel v ts1

/-- Remaining additive operators after a first term. -/
def parseExprRest : ℕ → Frac → List Tok → Option (Frac × List Tok)
  | 0, _, _ => none
  | fuel + 1, acc, Tok.plusTok :: ts =>
    match parseTerm fuel ts with
    | none => none
    | some (v, ts1) => parseExprRest fuel (acc.add v) ts1
  | fuel + 1, acc, Tok.minusTok :: ts =>
    match parseTerm fuel ts with
    | none => none
    | some (v, ts1) => parseExprRest fuel (acc.sub v) ts1
  | _ + 1, acc, ts => some (acc, ts)

/-- Multiplicative level (left-associative times and divide over unary
operands). -/
def parseTerm : ℕ → List Tok → Option (Frac × List Tok)
  | 0, _ => none
  | fuel + 1, ts =>
    match parseUnary fuel ts with
    | none => none
    | some (v, ts1) => parseTermRest fuel v ts1

/-- Remaining multiplicative operators after a first operand. -/
def parseTermRest : ℕ → Frac → List Tok → Option (Frac × List Tok)
  | 0, _, _ => none
  | fuel + 1, acc, Tok.mulTok :: ts =>
    match parseUnary fuel ts with
    | none => none
    | some (v, ts1) => parseTermRest fuel (acc.mul v) ts1
  | fuel + 1, acc, Tok.divTok :: ts =>
    match parseUnary fuel ts with
    | none => none
    | some (v, ts1) =>
      match acc.div v with
      | none => none
      | some w => parseTermRest fuel w ts1
  | _ + 1, acc, ts => some (acc, ts)

/-- Unary plus and minus (right-associative chains of single signs). -/
def parseUnary : ℕ → List Tok → Option (Frac × List Tok)
  | 0, _ => none
  | fuel + 1, Tok.minusTok :: ts =>
    match parseUnary fuel ts with
    | none => none
    | some (v, ts1) => some (v.neg, ts1)
  | fuel + 1, Tok.plusTok :: ts => parseUnary fuel ts
  | fuel + 1, ts => parseAtom fuel ts

/-- Atoms: numeric literals and parenthesized expressions. -/
def parseAtom : ℕ → List Tok → Option (Frac × List Tok)
  | 0, _ => none
  | _ + 1, Tok.num f :: ts => some (f, ts)
  | fuel + 1, Tok.lparen :: ts =>
    match parseExpr fuel ts with
    | none => none
    | some (v, ts1) =>
      match ts1 with
      | Tok.rparen :: ts2 => some (v, ts2)
      | _ => none
  | _, _ => none

end

/-- Embedding of AnswerValidator.evaluateExpression (answer.service.ts
lines 70-91): sanitize, reject an empty result, then evaluate the
sanitized text as a JavaScript arithmetic expression wrapped in
parentheses (so the whole text must parse as one expression).  `none`
models every path on which the source throws or produces a non-numeric or
non-finite result.  The fuel bound exceeds the maximal parser call depth
(at most four non-consuming grammar levels per consumed token), so it
never runs out on well-formed input. -/
def evalFrac (expression : List Char) : Option Frac :=
  let sanitized := sanitizeExpression expression
  if sanitized.isEmpty then none
  else
    match tokenize sanitized with
    | none => none
    | some ts =>
      match parseExpr (4 * ts.length + 8) ts with
      | some (v, []) => some v
      | _ => none

/-- The rational value of a submission's expression: `evalFrac` read at
the rational level.  This is the number the source's evaluateExpression
returns (modulo the float64/exact-rational identification discussed in the
header). -/
def evaluateExpression (expression : List Char) : Option ℚ :=
  (evalFrac expression).map Frac.toRat

/-- The tolerance test of validateCalculation, computed on the fraction
representation by cross-multiplication: for a value v/w (w positive) and a
target p/q (q positive), the absolute difference is below 1/1000 iff
1000 times the absolute value of v*q - p*w is below w*q.  The lemma
`tolLt_iff` states the equivalence with the rational-level comparison. -/
def tolLt (f : Frac) (t : ℚ) : Bool :=
  decide (1000 * |f.num * (t.den : ℤ) - t.num * (f.den : ℤ)| < (f.den : ℤ) * (t.den : ℤ))

/-- Embedding of AnswerValidator.validateCalculation (answer.service.ts
lines 51-65): a missing target yields false; otherwise the submission is
evaluated and compared to the target with absolute tolerance 0.001, any
evaluation error being caught as false. -/
def validateCalculation (userAnswer : List Char) (targetValue : Option ℚ) : Bool :=
  match targetValue with
  | none => false
  | some t =>
    match evalFrac userAnswer with
    | none => false
    | some result => tolLt result t

/-- The Prisma InputType enumeration as used by the grader
(answer.service.ts lines 14-28).  The enumeration is declared in the
Prisma schema, which is not part of the source tree; the four named
variants are the ones the grader's switch recognizes, and
`UNKNOWN_VARIANT` stands for any other value, which reaches the switch's
default arm. -/
inductive InputType where
  | TEXT
  | MULTIPLE_CHOICE_3
  | MULTIPLE_CHOICE_4
  | CALCULATION
  | UNKNOWN_VARIANT
deriving DecidableEq

/-- Embedding of AnswerValidator.validate (answer.service.ts lines 8-28):
dispatch on the input type; unrecognized types grade false. -/
def validate (userAnswer : List Char) (correctAnswers : List (List Char))
    (inputType : InputType) (targetValue : Option ℚ) : Bool :=
  match inputType with
  | InputType.TEXT => validateTextAnswer userAnswer correctAnswers
  | InputType.MULTIPLE_CHOICE_3 => validateMultipleChoice userAnswer correctAnswers
  | InputType.MULTIPLE_CHOICE_4 => validateMultipleChoice userAnswer correctAnswers
  | InputType.CALCULATION => validateCalculation userAnswer targetValue
  | InputType.UNKNOWN_VARIANT => false

/-- Model of JavaScript Math.round on the (nonnegative) values arising
here: round half toward positive infinity, i.e. the floor of the argument
plus one half. -/
def jsRound (q : ℚ) : ℤ := ⌊q + 1 / 2⌋

/-- Embedding of calculateMastery from the game-completion route
(game.routes.ts, part_006 lines 211-214) and of pct (part_008 lines
217-218): zero when no question of the category was answered, otherwise
the rounded percentage of correct answers. -/
def calculateMastery (correct total : ℕ) : ℤ :=
  if 0 < total then jsRound (((correct : ℚ) / (total : ℚ)) * 100) else 0

/-- One graded answer as seen by the scoring loop of the game-completion
route: the difficulty of its question and the grading verdict. -/
structure AnsweredQuestion where
  difficulty : ℤ
  isCorrect : Bool
deriving DecidableEq

/-- Embedding of makeBase (part_008 lines 147 and 430) and of the inline
base-score expression of the completion route (part_006 line 198): 30 for
difficulty at least 3, 20 for difficulty exactly 2, 10 otherwise. -/
def makeBase (d : ℤ) : ℕ := if 3 ≤ d then 30 else if d = 2 then 20 else 10

/-- The score contribution of one graded answer in the completion loop
(part_006 lines 193-199): the base value when correct, nothing when
incorrect. -/
def answerPoints (a : AnsweredQuestion) : ℕ :=
  if a.isCorrect then makeBase a.difficulty else 0

/-- Embedding of the serverScore accumulation of the completion loop
(part_006 lines 149-209): fold over the graded answers, adding the base
value of each correct one. -/
def serverScore (answers : List AnsweredQuestion) : ℕ :=
  answers.foldl (fun s a => if a.isCorrect then s + makeBase a.difficulty else s) 0

/-- One per-user aggregate row entering the leaderboard pipeline
(leaderboard.routes.ts lines 71-98), keyed by an opaque user id. -/
structure AggregateRow where
  userId : ℕ
  score : ℤ
  gamesPlayed : ℕ
  totalCorrect : ℕ
  totalQuestions : ℕ
deriving DecidableEq

/-- One leaderboard row before ranks are attached (leaderboard.routes.ts
lines 101-114). -/
structure LeaderboardEntry where
  userId : ℕ
  score : ℤ
  gamesPlayed : ℕ
  accuracy : ℤ
deriving DecidableEq

/-- The per-row mapping of the leaderboard pipeline (leaderboard.routes.ts
lines 102-114): carry the user data over and compute the accuracy
percentage. -/
def mkLeaderboardEntry (r : AggregateRow) : LeaderboardEntry :=
  { userId := r.userId
    score := r.score
    gamesPlayed := r.gamesPlayed
    accuracy :=
      if 0 < r.totalQuestions then
        jsRound (((r.totalCorrect : ℚ) / (r.totalQuestions : ℚ)) * 100)
      else 0 }

/-- The ordering of the leaderboard sort comparator (leaderboard.routes.ts
line 115): descending score. -/
def scoreGe (a b : LeaderboardEntry) : Prop := b.score ≤ a.score

instance : DecidableRel scoreGe :=
  fun a b => inferInstanceAs (Decidable (b.score ≤ a.score))

/-- The sorted stage of the leaderboard pipeline: map the rows to entries
and sort by score descending.  The ECMAScript sort is stable, and a stable
sort is uniquely determined by its comparator, so it is modelled by
insertion sort, which is stable for this ordering. -/
def sortedEntries (rows : List AggregateRow) : List LeaderboardEntry :=
  List.insertionSort scoreGe (rows.map mkLeaderboardEntry)

/-- A leaderboard row with its 1-based rank (leaderboard.routes.ts line
117). -/
structure RankedEntry where
  rank : ℕ
  entry : LeaderboardEntry
deriving DecidableEq

/-- Attach consecutive ranks starting from `n` (the source maps entry `i`
after truncation to rank `i + 1`). -/
def attachRanks : ℕ → List LeaderboardEntry → List RankedEntry
  | _, [] => []
  | n, e :: es => { rank := n, entry := e } :: attachRanks (n + 1) es

/-- Embedding of the leaderboard pipeline (leaderboard.routes.ts lines
101-117): build entries, sort by score descending (stable), truncate to
the limit, and attach 1-based ranks. -/
def rankRows (limit : ℕ) (rows : List AggregateRow) : List RankedEntry :=
  attachRanks 1 ((sortedEntries rows).take limit)

/-- Embedding of the mastery update of AchievementService.updateMasteryScore
(achievement.ts, part_002 lines 57-72 and 136-148): the new stored value is
the maximum of the currently stored value and the floor of the session
percentage.  The surrounding database read and write are the caller's
concern; a missing profile makes the whole call a no-op and is outside this
pure core. -/
def updateMasteryScore (currentScore : ℤ) (score : ℚ) : ℤ :=
  max currentScore ⌊score⌋

/-- Normalization as the words of claim C1 describe it: trim, lowercase,
collapse whitespace, strip the punctuation set, then apply canonical NFD
decomposition to the whole text.  The canonical decomposition table is
restricted to the code points appearing in this development (latin small
letter e with acute decomposes into the base letter and the combining
acute accent U+0301); it is the identity elsewhere. -/
def claimNFDChar (c : Char) : List Char :=
  if c.toNat = 0xE9 then [Char.ofNat 0x65, Char.ofNat 0x301] else [c]

/-- Full-text normalization following the claim wording (see
`claimNFDChar`); it differs from the source's `normalizeText` exactly in
applying NFD to every character rather than only to Thai-block
characters. -/
def claimNormalizeText (text : List Char) : List Char :=
  ((collapseWs ((jsTrim text).map jsToLower)).filter
      (fun c => !isStrippedPunct c)).flatMap claimNFDChar

/-- Sanitization as the words of claim C4 describe it: keep only digits,
the four operators, parentheses and whitespace — without the decimal
point. -/
def claimSanitizeCalc (l : List Char) : List Char :=
  l.filter (fun c =>
    isDigitChar c || c == '+' || c == '-' || c == '*' || c == '/' ||
    c == '(' || c == ')' || isJsSpace c)

/-- C1 (counterexample): the claim's grading rule — normalized submission
equal, under full-text NFD normalization, to the normalized form of some
expected answer — disagrees with the code on the submission consisting of
the letter e followed by the combining acute accent, graded against the
expected answer containing the precomposed letter e-acute: the claim's
normalizations coincide, yet the grader answers false, because the source
applies NFD only to Thai-block characters. -/
theorem C1_counterexample :
    ¬ ((validateTextAnswer [Char.ofNat 0x65, Char.ofNat 0x301] [[Char.ofNat 0xE9]] = true) ↔
      ∃ a ∈ [[Char.ofNat 0xE9]],
        claimNormalizeText a = claimNormalizeText [Char.ofNat 0x65, Char.ofNat 0x301]) := by
  decide

/-- C1 (amended): for every FreeText question with a non-empty
expected-answer list, the grader answers true iff the normalized
submission equals the normalized form of some expected answer, where
normalization trims, lowercases, collapses interior whitespace runs,
strips the fixed punctuation set and applies NFD per character only to
Thai-block characters (which have no canonical decompositions, so
precomposed and decomposed diacritics of other scripts stay distinct). -/
theorem C1_freeText_grading (userAnswer : List Char)
    (correctAnswers : List (List Char)) (_hne : correctAnswers ≠ []) :
    validateTextAnswer userAnswer correctAnswers = true ↔
      ∃ a ∈ correctAnswers, normalizeText a = normalizeText userAnswer := by
  simp [validateTextAnswer, List.any_eq_true]

/-- C1 (witness): the amended statement applied to a concrete question. -/
theorem C1_witness :
    ([['a']] : List (List Char)) ≠ [] ∧
      (validateTextAnswer ['a'] [['a']] = true ↔
        ∃ a ∈ [(['a'] : List Char)], normalizeText a = normalizeText ['a']) :=
  ⟨by decide, C1_freeText_grading ['a'] [['a']] (by decide)⟩

/-- C2 (counterexample): with expected answers a then b, the submission b
equals a later element but not the first, and the grader answers true,
contradicting the claim that only equality with the first answer counts. -/
theorem C2_counterexample :
    ¬ ((validate ['b'] [['a'], ['b']] InputType.MULTIPLE_CHOICE_3 none = true) ↔
      (['b'] : List Char) = ['a']) := by
  decide

/-- C2 (amended): for every MultipleChoice question the grader answers
true iff the submission is exactly, case-sensitively and without
normalization, equal to SOME element of the expected-answer list (not
necessarily the first); the submission consisting of capital A against
the expected list containing lowercase a is still graded incorrect. -/
theorem C2_multipleChoice_grading (userAnswer : List Char)
    (correctAnswers : List (List Char)) (targetValue : Option ℚ) :
    (validate userAnswer correctAnswers InputType.MULTIPLE_CHOICE_3 targetValue = true ↔
        userAnswer ∈ correctAnswers) ∧
      (validate userAnswer correctAnswers InputType.MULTIPLE_CHOICE_4 targetValue = true ↔
        userAnswer ∈ correctAnswers) ∧
      validate ['A'] [['a']] InputType.MULTIPLE_CHOICE_3 none = false := by
  refine ⟨?_, ?_, by decide⟩ <;>
    simp [validate, validateMultipleChoice, List.elem_iff]

/-- C5 (counterexample): grading a TEXT or MultipleChoice question with an
empty expected-answer list, or a Calculation question with a missing
target, silently returns false — in the source no exception is raised on
these paths (the membership tests are over an empty list and the missing
target is an explicit early false return), contradicting the claim that
these are rejected as caller errors. -/
theorem C5_counterexample :
    validate ['x'] [] InputType.TEXT none = false ∧
      validate ['x'] [] InputType.MULTIPLE_CHOICE_3 none = false ∧
      validate ['5'] [['5']] InputType.CALCULATION none = false := by
  decide

/-- C5 (amended): an empty expected-answer list for FreeText or
MultipleChoice grading and a missing numeric target for Calculation
grading are silently resolved to a false verdict; the grader is total on
these inputs and surfaces no error to the caller. -/
theorem C5_degenerate_inputs (userAnswer : List Char) (targetValue : Option ℚ)
    (sub : List Char) (correctAnswers : List (List Char)) :
    validate userAnswer [] InputType.TEXT targetValue = false ∧
      validate userAnswer [] InputType.MULTIPLE_CHOICE_3 targetValue = false ∧
      validate userAnswer [] InputType.MULTIPLE_CHOICE_4 targetValue = false ∧
      validate sub correctAnswers InputType.CALCULATION none = false := by
  refine ⟨?_, ?_, ?_, ?_⟩ <;>
    simp [validate, validateTextAnswer, validateMultipleChoice, validateCalculation]

/-- The completion loop's score accumulator, started from an arbitrary
value, adds the points awarded for each graded answer. -/
theorem serverScore_go (answers : List AnsweredQuestion) (n : ℕ) :
    answers.foldl (fun s a => if a.isCorrect then s + makeBase a.difficulty else s) n =
      n + (answers.map answerPoints).sum := by
  induction answers generalizing n with
  | nil => simp
  | cons a l ih =>
    cases ha : a.isCorrect
    · simp [List.foldl_cons, ha, ih, answerPoints]
    · simp [List.foldl_cons, ha, ih, answerPoints, Nat.add_assoc]

/-- Summing the points of all answers is the same as summing the base
values of the correct ones. -/
theorem points_sum_filter (answers : List AnsweredQuestion) :
    (answers.map answerPoints).sum =
      ((answers.filter (fun a => a.isCorrect)).map
          (fun a => makeBase a.difficulty)).sum := by
  induction answers with
  | nil => rfl
  | cons a l ih =>
    cases ha : a.isCorrect <;>
      simp [List.filter_cons, ha, answerPoints, ih]

/-- C7: the per-game category mastery percentage is 0 when no question of
the category was answered and the rounded value of 100 times the correct
ratio otherwise; whenever the correct count does not exceed the total it
is an integer between 0 and 100, and it is total (never an error or an
undefined value). -/
theorem C7_mastery_percent (correct total : ℕ) (h : correct ≤ total) :
    (total = 0 → calculateMastery correct total = 0) ∧
      (0 < total →
        calculateMastery correct total =
          jsRound (100 * (correct : ℚ) / (total : ℚ))) ∧
      0 ≤ calculateMastery correct total ∧ calculateMastery correct total ≤ 100 := by
  rcases Nat.eq_zero_or_pos total with h0 | h0
  · subst h0
    exact ⟨fun _ => by simp [calculateMastery], fun hc => absurd hc (lt_irrefl 0),
      by simp [calculateMastery], by simp [calculateMastery]⟩
  · have ht : (0 : ℚ) < (total : ℚ) := by exact_mod_cast h0
    have hq0 : (0 : ℚ) ≤ (correct : ℚ) / (total : ℚ) * 100 := by positivity
    have hq1 : (correct : ℚ) / (total : ℚ) * 100 ≤ 100 := by
      have hle : (correct : ℚ) ≤ (total : ℚ) := by exact_mod_cast h
      have hdiv : (correct : ℚ) / (total : ℚ) ≤ 1 := (div_le_one ht).mpr hle
      linarith
    refine ⟨fun h00 => absurd h00 (Nat.pos_iff_ne_zero.mp h0), fun _ => ?_, ?_, ?_⟩
    · rw [calculateMastery, if_pos h0]
      congr 1
      ring
    · rw [calculateMastery, if_pos h0, jsRound]
      exact Int.le_floor.mpr (by push_cast; linarith)
    · rw [calculateMastery, if_pos h0, jsRound]
      have hlt : ⌊(correct : ℚ) / (total : ℚ) * 100 + 1 / 2⌋ < 101 :=
        Int.floor_lt.mpr (by push_cast; linarith)
      omega

/-- C7 (witness): the mastery formula applied to 3 correct answers out of
4. -/
theorem C7_witness :
    (3 : ℕ) ≤ 4 ∧
      (((4 : ℕ) = 0 → calculateMastery 3 4 = 0) ∧
        (0 < (4 : ℕ) →
          calculateMastery 3 4 = jsRound (100 * ((3 : ℕ) : ℚ) / ((4 : ℕ) : ℚ))) ∧
        0 ≤ calculateMastery 3 4 ∧ calculateMastery 3 4 ≤ 100) :=
  ⟨by decide, C7_mastery_percent 3 4 (by decide)⟩

/-- C8: each graded answer contributes its difficulty's base value to the
server score when correct and nothing when incorrect, where the base is 30
for difficulty at least 3, 20 for difficulty 2 and 10 otherwise; hence the
total server score is the sum of the base values of exactly the correctly
graded answers. -/
theorem C8_scoring (answers : List AnsweredQuestion) :
    serverScore answers = (answers.map answerPoints).sum ∧
      serverScore answers =
        ((answers.filter (fun a => a.isCorrect)).map
            (fun a => makeBase a.difficulty)).sum ∧
      (∀ a : AnsweredQuestion, a.isCorrect = true →
        answerPoints a = makeBase a.difficulty) ∧
      (∀ a : AnsweredQuestion, a.isCorrect = false → answerPoints a = 0) ∧
      (∀ d : ℤ, 3 ≤ d → makeBase d = 30) ∧
      makeBase 2 = 20 ∧
      (∀ d : ℤ, d < 3 → d ≠ 2 → makeBase d = 10) := by
  refine ⟨?_, ?_, fun a ha => by simp [answerPoints, ha],
    fun a ha => by simp [answerPoints, ha],
    fun d hd => by rw [makeBase, if_pos hd], by decide,
    fun d h1 h2 => by rw [makeBase, if_neg (by omega), if_neg h2]⟩
  · rw [serverScore, serverScore_go, Nat.zero_add]
  · rw [serverScore, serverScore_go, Nat.zero_add, points_sum_filter]

/-- C8 (witness): the base-value clause applied at difficulty 4. -/
theorem C8_witness : (3 : ℤ) ≤ 4 ∧ makeBase 4 = 30 :=
  ⟨by decide, (C8_scoring []).2.2.2.2.1 4 (by decide)⟩

instance : IsTotal LeaderboardEntry scoreGe :=
  ⟨fun a b => le_total b.score a.score⟩

instance : IsTrans LeaderboardEntry scoreGe :=
  ⟨fun _ _ _ hab hbc => le_trans hbc hab⟩

/-- Attaching ranks preserves the underlying entries. -/
theorem attachRanks_map_entry (n : ℕ) (l : List LeaderboardEntry) :
    (attachRanks n l).map RankedEntry.entry = l := by
  induction l generalizing n with
  | nil => rfl
  | cons e es ih => simp [attachRanks, ih]

/-- Attaching ranks preserves the length. -/
theorem attachRanks_length (n : ℕ) (l : List LeaderboardEntry) :
    (attachRanks n l).length = l.length := by
  induction l generalizing n with
  | nil => rfl
  | cons e es ih => simp [attachRanks, ih]

/-- The rank attached at position i, starting from n, is n + i. -/
theorem attachRanks_rank_get (n : ℕ) (l : List LeaderboardEntry) (i : ℕ)
    (hi : i < (attachRanks n l).length) :
    ((attachRanks n l).get ⟨i, hi⟩).rank = n + i := by
  induction l generalizing n i with
  | nil => simp [attachRanks] at hi
  | cons e es ih =>
    cases i with
    | zero => rfl
    | succ j =>
      have hj : j < (attachRanks (n + 1) es).length := by
        simpa [attachRanks] using hi
      have hrec := ih (n + 1) j hj
      simpa [attachRanks, Nat.add_assoc, Nat.add_comm 1 j] using hrec

/-- The entry at position i is unchanged by rank attachment. -/
theorem attachRanks_entry_get (n : ℕ) (l : List LeaderboardEntry) (i : ℕ)
    (hi : i < (attachRanks n l).length) (hi2 : i < l.length) :
    ((attachRanks n l).get ⟨i, hi⟩).entry = l.get ⟨i, hi2⟩ := by
  induction l generalizing n i with
  | nil => simp [attachRanks] at hi
  | cons e es ih =>
    cases i with
    | zero => rfl
    | succ j =>
      have hj : j < (attachRanks (n + 1) es).length := by
        simpa [attachRanks] using hi
      have hj2 : j < es.length := by simpa using hi2
      have hrec := ih (n + 1) j hj hj2
      simpa [attachRanks] using hrec

/-- Inserting an entry whose score is k puts it in front of every other
entry with score k already present: the filter at score k gains the new
entry at its head. -/
theorem orderedInsert_filter_eq (x : LeaderboardEntry) (l : List LeaderboardEntry)
    (k : ℤ) (hx : x.score = k) :
    (List.orderedInsert scoreGe x l).filter (fun e => e.score == k) =
      x :: l.filter (fun e => e.score == k) := by
  induction l with
  | nil => simp [List.orderedInsert, hx]
  | cons b bs ih =>
    by_cases hb : scoreGe x b
    · rw [List.orderedInsert, if_pos hb]
      simp [List.filter_cons, hx]
    · rw [List.orderedInsert, if_neg hb]
      have hbk : b.score ≠ k := by
        intro hk
        exact hb (by simp [scoreGe, hk, hx])
      simp [List.filter_cons, hbk, ih]

/-- Inserting an entry whose score is not k does not change the filter at
score k. -/
theorem orderedInsert_filter_ne (x : LeaderboardEntry) (l : List LeaderboardEntry)
    (k : ℤ) (hx : x.score ≠ k) :
    (List.orderedInsert scoreGe x l).filter (fun e => e.score == k) =
      l.filter (fun e => e.score == k) := by
  induction l with
  | nil => simp [List.orderedInsert, hx]
  | cons b bs ih =>
    by_cases hb : scoreGe x b
    · rw [List.orderedInsert, if_pos hb]
      simp [List.filter_cons, hx]
    · rw [List.orderedInsert, if_neg hb]
      simp [List.filter_cons, ih]

/-- Stability of the descending-score sort: for every score value, the
subsequence of entries carrying that score is exactly the one of the
unsorted list — tied entries keep their original relative order. -/
theorem insertionSort_filter_stable (L : List LeaderboardEntry) (k : ℤ) :
    (List.insertionSort scoreGe L).filter (fun e => e.score == k) =
      L.filter (fun e => e.score == k) := by
  induction L with
  | nil => rfl
  | cons x xs ih =>
    show (List.orderedInsert scoreGe x (List.insertionSort scoreGe xs)).filter
        (fun e => e.score == k) = (x :: xs).filter (fun e => e.score == k)
    by_cases hx : x.score = k
    · rw [orderedInsert_filter_eq x _ k hx, ih, List.filter_cons]
      simp [hx]
    · rw [orderedInsert_filter_ne x _ k hx, ih, List.filter_cons]
      simp [hx]

/-- The sorted stage is sorted by descending score. -/
theorem sortedEntries_sorted (rows : List AggregateRow) :
    List.Sorted scoreGe (sortedEntries rows) :=
  List.sorted_insertionSort scoreGe (rows.map mkLeaderboardEntry)

/-- C9: the leaderboard ranker sorts the per-user aggregate rows by score
descending with ties kept in input order, truncates to the caller's
limit, assigns 1-based ranks by position after truncation, computes each
entry's accuracy as the rounded percentage of correct answers (0 when no
questions), and maps the empty input to the empty output. -/
theorem C9_leaderboard (limit : ℕ) (rows : List AggregateRow) (_hl : 0 < limit) :
    (rows = [] → rankRows limit rows = []) ∧
      (rankRows limit rows).map RankedEntry.entry = (sortedEntries rows).take limit ∧
      (∀ (i : ℕ) (hi : i < (rankRows limit rows).length),
        ((rankRows limit rows).get ⟨i, hi⟩).rank = i + 1) ∧
      (∀ (i j : ℕ) (hi : i < (rankRows limit rows).length)
          (hj : j < (rankRows limit rows).length), i ≤ j →
        ((rankRows limit rows).get ⟨j, hj⟩).entry.score ≤
          ((rankRows limit rows).get ⟨i, hi⟩).entry.score) ∧
      (∀ e ∈ sortedEntries rows, ∃ r ∈ rows, e = mkLeaderboardEntry r ∧
        e.accuracy =
          (if 0 < r.totalQuestions then
            jsRound (100 * (r.totalCorrect : ℚ) / (r.totalQuestions : ℚ))
          else 0)) ∧
      (∀ k : ℤ, (sortedEntries rows).filter (fun e => e.score == k) =
        (rows.map mkLeaderboardEntry).filter (fun e => e.score == k)) := by
  refine ⟨fun hrows => by subst hrows; simp [rankRows, sortedEntries, attachRanks],
    attachRanks_map_entry 1 _, ?_, ?_, ?_,
    fun k => insertionSort_filter_stable _ k⟩
  · intro i hi
    show ((attachRanks 1 ((sortedEntries rows).take limit)).get ⟨i, hi⟩).rank = i + 1
    rw [attachRanks_rank_get, Nat.add_comm]
  · intro i j hi hj hij
    have hlen : (rankRows limit rows).length =
        ((sortedEntries rows).take limit).length := attachRanks_length 1 _
    have hi2 : i < ((sortedEntries rows).take limit).length := hlen ▸ hi
    have hj2 : j < ((sortedEntries rows).take limit).length := hlen ▸ hj
    show ((attachRanks 1 ((sortedEntries rows).take limit)).get ⟨j, hj⟩).entry.score ≤
      ((attachRanks 1 ((sortedEntries rows).take limit)).get ⟨i, hi⟩).entry.score
    rw [attachRanks_entry_get 1 _ i hi hi2, attachRanks_entry_get 1 _ j hj hj2]
    have hsorted : List.Sorted scoreGe ((sortedEntries rows).take limit) :=
      List.Pairwise.sublist (List.take_sublist limit _) (sortedEntries_sorted rows)
    rcases Nat.lt_or_ge i j with hlt | hge
    · exact hsorted.rel_get_of_lt hlt
    · have hij2 : i = j := Nat.le_antisymm hij hge
      subst hij2
      exact le_refl _
  · intro e he
    have hmem : e ∈ rows.map mkLeaderboardEntry :=
      (List.perm_insertionSort scoreGe (rows.map mkLeaderboardEntry)).subset he
    rcases List.mem_map.mp hmem with ⟨r, hr, rfl⟩
    refine ⟨r, hr, rfl, ?_⟩
    rw [mkLeaderboardEntry]
    by_cases hq : 0 < r.totalQuestions
    · rw [if_pos hq, if_pos hq]
      ring_nf
    · rw [if_neg hq, if_neg hq]

/-- C9 (witness): the ranker applied to a concrete two-row input with
limit 2. -/
theorem C9_witness :
    rankRows 2 [] = [] :=
  (C9_leaderboard 2 [] (by decide)).1 rfl

/-- C10: the achievement-service mastery update stores the maximum of the
currently stored value and the floor of the session percentage, so the
stored per-category mastery value never decreases across games under this
operation — a monotone high-water mark with floor rounding, distinct both
from overwriting with the session value and from cumulative
recomputation. -/
theorem C10_mastery_high_water (currentScore : ℤ) (score : ℚ) :
    updateMasteryScore currentScore score = max currentScore ⌊score⌋ ∧
      currentScore ≤ updateMasteryScore currentScore score :=
  ⟨rfl, le_max_left _ _⟩

/-- Sanitization removes every character it would remove again: it is
idempotent. -/
theorem sanitizeExpression_idem (l : List Char) :
    sanitizeExpression (sanitizeExpression l) = sanitizeExpression l := by
  simp [sanitizeExpression, List.filter_filter]

/-- Evaluation of a submission only sees its sanitized text. -/
theorem evalFrac_sanitize (l : List Char) :
    evalFrac (sanitizeExpression l) = evalFrac l := by
  simp [evalFrac, sanitizeExpression_idem]

/-- Evaluation of a submission only sees its sanitized text (rational
level). -/
theorem evaluateExpression_sanitize (l : List Char) :
    evaluateExpression (sanitizeExpression l) = evaluateExpression l := by
  simp [evaluateExpression, evalFrac_sanitize]

/-- C4 (counterexample): the claim's retained character set omits the
decimal point, but the grader keeps it: the submission 10.0 grades correct
against target 10, while the claim-sanitized text 100 grades incorrect,
so the grade does not depend only on the characters the claim says are
retained. -/
theorem C4_counterexample :
    claimSanitizeCalc ['1', '0', '.', '0'] = ['1', '0', '0'] ∧
      validateCalculation ['1', '0', '.', '0'] (some 10) = true ∧
      validateCalculation (claimSanitizeCalc ['1', '0', '.', '0']) (some 10) = false := by
  decide

/-- C4 (amended): every character other than digits, the decimal point,
the four operators, parentheses and whitespace is stripped from a
Calculation submission before evaluation, and the grade depends only on
the retained characters; the submission DROP TABLE;5+5 is sanitized to
(space)5+5 and grades correct against target 10. -/
theorem C4_sanitization (sub : List Char) (targetValue : Option ℚ) :
    validateCalculation (sanitizeExpression sub) targetValue =
        validateCalculation sub targetValue ∧
      sanitizeExpression
          ['D', 'R', 'O', 'P', ' ', 'T', 'A', 'B', 'L', 'E', ';', '5', '+', '5'] =
        [' ', '5', '+', '5'] ∧
      validateCalculation
          ['D', 'R', 'O', 'P', ' ', 'T', 'A', 'B', 'L', 'E', ';', '5', '+', '5']
          (some 10) = true := by
  refine ⟨?_, by decide, by decide⟩
  cases targetValue <;> simp [validateCalculation, evalFrac_sanitize]

end GameCard
